import Mathlib

/-!
Verification of the nhldata client library's response-normalization and
pagination layer.  Python dictionaries are modelled as association lists
(insertion-ordered, unique keys), JSON values as an inductive `JValue`,
and Python exceptions as an explicit `PyError` channel via `Except`.
-/

/-- Decoded JSON value, as produced by `response.json()`. -/
inductive JValue where
  | null
  | bool (b : Bool)
  | num (n : Int)
  | str (s : String)
  | arr (elems : List JValue)
  | obj (fields : List (String × JValue))

/-- Association-list lookup, modelling Python `d[k]` / `k in d` on a dict
whose items are listed in insertion order. -/
def alistLookup {β : Type} : List (String × β) → String → Option β
  | [], _ => none
  | (k, v) :: rest, key => if k = key then some v else alistLookup rest key

/-- Typed model of the Python exceptions raised by this code base. -/
inductive PyError where
  | keyError (key : String)
  | typeError
  | validationError (msg : String)
  | httpError (status : Nat) (body : JValue)
  | missingArchiveEntry (name : String)

/-- Python `v[key]` on a decoded JSON value: succeeds only when `v` is an
object containing `key` (`KeyError` when absent, `TypeError` otherwise). -/
def subscriptObj (v : JValue) (key : String) : Except PyError JValue :=
  match v with
  | .obj fields =>
    match alistLookup fields key with
    | some d => .ok d
    | none => .error (.keyError key)
  | _ => .error .typeError

/-! ## Locale unwrapping (`NHLApi._extract_default` / `WebConnector._extract_default`)

Source: `v['default'] if isinstance(v, dict) and 'default' in v else v`
applied to every item of the record. -/

/-- One value of the comprehension body in `_extract_default`. -/
def unwrapValue (v : JValue) : JValue :=
  match v with
  | .obj fields =>
    match alistLookup fields "default" with
    | some d => d
    | none => .obj fields
  | other => other

/-- `_extract_default(data)`: the dict comprehension
`{k: v['default'] if isinstance(v, dict) and 'default' in v else v for k, v in data.items()}`. -/
def extract_default (data : List (String × JValue)) : List (String × JValue) :=
  data.map (fun kv => (kv.1, unwrapValue kv.2))

/-- Boolean test: is `v` a mapping containing the key `default`? -/
def isLocaleWrapped (v : JValue) : Bool :=
  match v with
  | .obj fields => (alistLookup fields "default").isSome
  | _ => false

/-! ## Position flattening (`NHLApi.roster` / `nhlapi_master.roster`)

Source: `[player for pos in data for player in data[pos]]`, equivalently
`itertools.chain.from_iterable([data[pos] for pos in data])`; iterating a
dict yields its keys in insertion order and `data[pos]` the paired list. -/

/-- Flattening of a position-keyed mapping of record lists. -/
def flatten_positions {α : Type} (m : List (String × List α)) : List α :=
  (m.map Prod.snd).flatten

/-! ## Endpoint resolution (`Wrapper._url_check`)

Two observed revisions: `nhlstats/nhl/wrapper.py` uses
`url_mapping.get(type, "")` (silent empty string for unknown families);
`src/nhlapi/connector.py` uses `if`/`elif` with no `else` (implicit `None`). -/

def statsHost : String := "https://api.nhle.com/stats/rest/"
def webHost : String := "https://api-web.nhle.com/"

/-- `_url_check` of `nhlstats/nhl/wrapper.py`: a two-key dict `.get` with
default `""`. -/
def url_check (ver lang family : String) : String :=
  if family = "stats" then statsHost ++ lang
  else if family = "web" then webHost ++ ver
  else ""

/-- `_url_check` of `src/nhlapi/connector.py`: `if`/`elif` chain falling
off the end (Python implicitly returns `None`). -/
def url_check_connector (ver lang family : String) : Option String :=
  if family = "stats" then some (statsHost ++ lang)
  else if family = "web" then some (webHost ++ ver)
  else none

/-! ## Request execution (`Wrapper.get`)

The HTTP layer is modelled by an oracle `fetch : String → HttpResponse`
mapping a full URL to the provider's (already JSON-decoded) response. -/

structure HttpResponse where
  status : Nat
  body : JValue

/-- `requests.Response.raise_for_status()`: raises `HTTPError` (carrying the
response) exactly for status codes in `[400, 600)`. -/
def raise_for_status (r : HttpResponse) : Except PyError Unit :=
  if 400 ≤ r.status ∧ r.status < 600 then .error (.httpError r.status r.body)
  else .ok ()

/-- `Wrapper.get` of `nhlstats/nhl/wrapper.py`: build the full URL, GET,
`raise_for_status()`, then return `response.json()`. -/
def wrapper_get (fetch : String → HttpResponse) (base_url endpoint : String) :
    Except PyError JValue :=
  let r := fetch (base_url ++ "/" ++ endpoint)
  match raise_for_status r with
  | .error e => .error e
  | .ok _ => .ok r.body

/-- `Wrapper.get` of `src/nhlapi/connector.py`: returns the decoded body only
when `299 >= status >= 200`, and otherwise falls off the end of the function,
which in Python returns `None`. -/
def connector_get (fetch : String → HttpResponse) (base_url endpoint : String) :
    Option JValue :=
  let r := fetch (base_url ++ "/" ++ endpoint)
  if 200 ≤ r.status ∧ r.status ≤ 299 then some r.body else none

/-! ## MoneyPuck argument validation (`_validate`)

`MAX_YEAR = int(datetime.date.today().year)` is a module-level constant; it
is passed here explicitly as `max_year`.  The Python `season` argument is
either absent, an `int` (single-season calls), or a `list` of ints
(multi-season calls); its truthiness gates the check. -/

inductive SeasonArg where
  | noneArg
  | int (y : Int)
  | list (ys : List Int)

/-- Membership in Python `range(lo, hi)` for an `int`. -/
def inYearRange (lo hi y : Int) : Bool := lo ≤ y && y < hi

/-- The `season and (single_year and season not in valid_range or
not single_year and set(season).difference(valid_range))` condition:
`.ok b` means the guard evaluated to truthiness `b`; the mismatched
combination of an `int` season with `single_year=False` reaches
`set(season)`, a `TypeError`.  A `list` season with `single_year=True`
is never a member of a range of ints, so a truthy list always trips
the guard there. -/
def seasonCheck (lo hi : Int) (season : SeasonArg) (single_year : Bool) :
    Except PyError Bool :=
  match season with
  | .noneArg => .ok false
  | .int y =>
    if y = 0 then .ok false
    else if single_year then .ok (!inYearRange lo hi y)
    else .error .typeError
  | .list ys =>
    if ys.isEmpty then .ok false
    else if single_year then .ok true
    else .ok (ys.any (fun y => !inYearRange lo hi y))

/-- The `arg and arg not in valid_set` pattern used for `gametype`,
`position` and `file_type`: an absent or empty-string argument is falsy
and skips the check entirely. -/
def strOptInvalid (o : Option String) (valid : List String) : Bool :=
  match o with
  | none => false
  | some s => !s.isEmpty && !(valid.contains s)

/-- `_validate` of `moneypuck.py`: sequential checks, first failure raises.
`ValueError` of `src/moneypuck/moneypuck.py` and `NHLStatsException` of
`nhldata/moneypuck/moneypuck.py` are both modelled as `validationError`. -/
def mpValidate (max_year : Int) (gametype : Option String) (season : SeasonArg)
    (position : Option String) (file_type : Option String) (single_year : Bool) :
    Except PyError Unit :=
  if strOptInvalid gametype ["regular", "playoffs"] then
    .error (.validationError "Invalid gametype")
  else
    match seasonCheck (if single_year then 2006 else 2007) max_year season single_year with
    | .error e => .error e
    | .ok true => .error (.validationError "Invalid season")
    | .ok false =>
      if strOptInvalid position ["skaters", "goalies"] then
        .error (.validationError "Invalid position")
      else if strOptInvalid file_type ["skaters", "goalies", "lines", "teams"] then
        .error (.validationError "Invalid file type")
      else .ok ()

/-! ## Per-season shot archive (`shots_season`)

The downloaded ZIP is modelled as an association list from member name to
member content; `zipfile.ZipFile.open` raises `KeyError` when the named
member is absent, the typed `MissingArchiveEntry` event of the spec.  The
CSV decoding applied to the opened member is independent of the
archive-entry property and is left as the raw member content. -/

def shots_zip_url (season : Int) : String :=
  "https://peter-tanner.com/moneypuck/downloads/shots_" ++ toString season ++ ".zip"

/-- The inner member name `f'shots_{season}.csv'`. -/
def shots_entry (season : Int) : String :=
  "shots_" ++ toString season ++ ".csv"

/-- `zipped.open(name)`: the named member's content, or the missing-entry
error when the archive has no member of that name. -/
def zipOpen (archive : List (String × String)) (name : String) :
    Except PyError String :=
  match alistLookup archive name with
  | some content => .ok content
  | none => .error (.missingArchiveEntry name)

/-- `shots_season` of `moneypuck.py`: validate the season, download the
season's ZIP, and open exactly the member `shots_{season}.csv`. -/
def shots_season (max_year season : Int)
    (fetchZip : String → List (String × String)) : Except PyError String :=
  match mpValidate max_year none (.int season) none none true with
  | .error e => .error e
  | .ok _ => zipOpen (fetchZip (shots_zip_url season)) (shots_entry season)

/-! ## Paginated skater stats (`nhlapi_master.skater_stats`)

The provider is modelled by an oracle `pages : Nat → List α` mapping a
`start` offset to the `data` list of that page's response.  The loop is the
source's `while start < total_players` loop; it returns both the issued
request payloads and the accumulated `results` pages. -/

/-- The query payload of one page request. -/
structure StatsPayload where
  limit : String
  start : Nat
  cayenneExp : String
  seasonId : String

/-- The payload built inside the loop body:
`{'limit': '100', 'start': start, 'cayenneExp': '', 'seasonId': season}`. -/
def skaterPayload (season : String) (start : Nat) : StatsPayload :=
  ⟨"100", start, "", season⟩

/-- The `while start < total_players` loop of `skater_stats`, returning the
issued payloads and the appended `data` pages, in issue order. -/
def skater_stats_loop {α : Type} (pages : Nat → List α) (season : String)
    (total start : Nat) : List StatsPayload × List (List α) :=
  if h : start < total then
    let rest := skater_stats_loop pages season total (start + 100)
    (skaterPayload season start :: rest.1, pages start :: rest.2)
  else ([], [])
termination_by total - start
decreasing_by omega

/-- The page requests `skater_stats(total, season)` issues. -/
def skater_stats_requests {α : Type} (pages : Nat → List α) (season : String)
    (total : Nat) : List StatsPayload :=
  (skater_stats_loop pages season total 0).1

/-- `skater_stats(total, season)`:
`list(itertools.chain.from_iterable(results))`. -/
def skater_stats {α : Type} (pages : Nat → List α) (season : String)
    (total : Nat) : List α :=
  (skater_stats_loop pages season total 0).2.flatten

/-! ## Roster locale changes (`nhlapi_master.roster`)

After flattening, the source walks `itertools.product(players, changes)`:
for each player, each of the four change keys in order; a key present in
the player record is replaced by its `['default']` entry, a missing key is
skipped. -/

/-- In-place update `player[change] = v` of a dict, preserving key order. -/
def setField (fields : List (String × JValue)) (key : String) (v : JValue) :
    List (String × JValue) :=
  fields.map (fun kv => if kv.1 = key then (key, v) else kv)

/-- One step of the change loop:
`if change in player: player[change] = player[change]['default']`. -/
def applyChange (player : List (String × JValue)) (change : String) :
    Except PyError (List (String × JValue)) :=
  match alistLookup player change with
  | some v =>
    match subscriptObj v "default" with
    | .ok d => .ok (setField player change d)
    | .error e => .error e
  | none => .ok player

/-- `changes = ['firstName','lastName','birthCity','birthStateProvince']`. -/
def rosterChangeKeys : List String :=
  ["firstName", "lastName", "birthCity", "birthStateProvince"]

/-- The `for change in changes` walk over one player record: each change
key applied in order, the first raised error aborting the loop. -/
def applyChanges (changes : List String) (player : List (String × JValue)) :
    Except PyError (List (String × JValue)) :=
  match changes with
  | [] => .ok player
  | c :: rest =>
    match applyChange player c with
    | .ok p1 => applyChanges rest p1
    | .error e => .error e

/-- All four changes applied to one player record, in source order. -/
def applyRosterChanges (player : List (String × JValue)) :
    Except PyError (List (String × JValue)) :=
  applyChanges rosterChangeKeys player

/-- `roster(team, season)` after the HTTP fetch: flatten the position-keyed
payload, then apply the four-field locale changes to every player. -/
def roster (data : List (String × List (List (String × JValue)))) :
    Except PyError (List (List (String × JValue))) :=
  (flatten_positions data).mapM applyRosterChanges

/-! ## Web connector gametype check (`nhldata/nhl/nhl.py`)

`Connector._check_gametype` is `{'regular': 2, 'playoffs': 3}.get(gametype,
NHLStatsException)`: for an unknown tag it returns the exception *class
object* as a value instead of raising.  Interpolating that class into an
f-string yields its `str()` representation. -/

/-- Result of `_check_gametype`: a game-type code, or the
`NHLStatsException` class object returned as the dict-lookup default. -/
inductive GametypeCheck where
  | code (n : Nat)
  | excClass

/-- `str(NHLStatsException)` for the class imported from
`nhldata.tools.exceptions`. -/
def nhlStatsExceptionClassStr : String :=
  "<class \x27nhldata.tools.exceptions.NHLStatsException\x27>"

/-- `Connector._check_gametype`. -/
def check_gametype (g : String) : GametypeCheck :=
  if g = "regular" then .code 2
  else if g = "playoffs" then .code 3
  else .excClass

/-- F-string interpolation of a `_check_gametype` result. -/
def gametypeCheckStr : GametypeCheck → String
  | .code n => toString n
  | .excClass => nhlStatsExceptionClassStr

/-- The endpoint path built by `WebConnector.game_log_player`:
`f'player/{player_id}/game-log/{season_str}{game_type_str}'`. -/
def game_log_player_endpoint (player_id : Nat) (season : Option Nat)
    (game_type : Option String) : String :=
  let season_str := match season with | none => "now" | some s => toString s
  let game_type_str :=
    match game_type with
    | none => ""
    | some g => "/" ++ gametypeCheckStr (check_gametype g)
  "player/" ++ toString player_id ++ "/game-log/" ++ season_str ++ game_type_str

/-- `WebConnector.game_log_player`: performs the GET on the built endpoint
(the oracle `fetch` maps an endpoint path to the decoded response body) and
returns its `['gameLog']` entry. -/
def game_log_player (fetch : String → JValue) (player_id : Nat)
    (season : Option Nat) (game_type : Option String) : Except PyError JValue :=
  subscriptObj (fetch (game_log_player_endpoint player_id season game_type)) "gameLog"

/-! ## Supporting lemmas -/

/-- A value that is not a `default`-carrying mapping passes through
`unwrapValue` unchanged. -/
theorem unwrapValue_of_not_wrapped (v : JValue) (h : isLocaleWrapped v = false) :
    unwrapValue v = v := by
  cases v with
  | obj fields =>
    cases hd : alistLookup fields "default" with
    | none => simp [unwrapValue, hd]
    | some d => simp [isLocaleWrapped, hd] at h
  | null => rfl
  | bool b => rfl
  | num n => rfl
  | str s => rfl
  | arr elems => rfl

/-- C2: locale unwrapping replaces each field whose value is a mapping
containing the key `default` by that mapping's `default` entry, passes every
other field through unchanged without recursing further, and maps the
documented example record accordingly. -/
theorem extract_default_spec :
    (∀ data : List (String × JValue),
      List.Forall₂
        (fun inp out =>
          out.1 = inp.1 ∧
          (∀ fields d, inp.2 = JValue.obj fields →
            alistLookup fields "default" = some d → out.2 = d) ∧
          (isLocaleWrapped inp.2 = false → out.2 = inp.2))
        data (extract_default data)) ∧
    extract_default
        [("name", .obj [("default", .str "Smith"), ("fr", .str "Sméth")]),
         ("age", .num 30)]
      = [("name", .str "Smith"), ("age", .num 30)] := by
  constructor
  · intro data
    induction data with
    | nil => exact List.Forall₂.nil
    | cons kv rest ih =>
      refine List.Forall₂.cons ⟨rfl, ?_, ?_⟩ ih
      · intro fields d hobj hd
        show unwrapValue kv.2 = d
        rw [hobj]
        simp [unwrapValue, hd]
      · intro h
        exact unwrapValue_of_not_wrapped _ h
  · rfl

/-- C8: on a record none of whose values is a mapping containing `default`,
locale unwrapping is the identity, so applying it twice equals applying it
once. -/
theorem extract_default_idempotent (data : List (String × JValue))
    (h : ∀ kv ∈ data, isLocaleWrapped kv.2 = false) :
    extract_default data = data ∧
    extract_default (extract_default data) = extract_default data := by
  have key : extract_default data = data := by
    induction data with
    | nil => rfl
    | cons kv rest ih =>
      have h1 : isLocaleWrapped kv.2 = false := h kv (by simp)
      have hrest := ih (fun kv hm => h kv (List.mem_cons_of_mem _ hm))
      show (kv.1, unwrapValue kv.2) :: extract_default rest = kv :: rest
      rw [unwrapValue_of_not_wrapped _ h1, hrest]
  exact ⟨key, by rw [key, key]⟩

/-- Witness for C8 at a concrete already-unwrapped record. -/
theorem extract_default_idempotent_witness :
    (∀ kv ∈ ([("name", JValue.str "Smith"), ("age", JValue.num 30)] :
        List (String × JValue)), isLocaleWrapped kv.2 = false) ∧
    (extract_default [("name", JValue.str "Smith"), ("age", JValue.num 30)]
        = [("name", JValue.str "Smith"), ("age", JValue.num 30)] ∧
     extract_default (extract_default
        [("name", JValue.str "Smith"), ("age", JValue.num 30)])
        = extract_default [("name", JValue.str "Smith"), ("age", JValue.num 30)]) :=
  ⟨by intro kv hm; fin_cases hm <;> rfl,
   extract_default_idempotent _ (by intro kv hm; fin_cases hm <;> rfl)⟩

/-- C3: flattening a position-keyed mapping concatenates the groups in
iteration order, keeps each group's record order, contains exactly the
records of the groups, and maps the documented example accordingly. -/
theorem flatten_positions_spec :
    (∀ (α : Type) (pre post : List (String × List α)) (lbl : String) (g : List α),
       flatten_positions (pre ++ (lbl, g) :: post)
         = flatten_positions pre ++ g ++ flatten_positions post) ∧
    (∀ (α : Type) (m : List (String × List α)) (x : α),
       x ∈ flatten_positions m ↔ ∃ e ∈ m, x ∈ e.2) ∧
    (∀ (α : Type) (A B C : α),
       flatten_positions [("forwards", [A, B]), ("goalies", [C])] = [A, B, C]) := by
  refine ⟨?_, ?_, ?_⟩
  · intro α pre post lbl g
    simp [flatten_positions]
  · intro α m x
    simp [flatten_positions, List.mem_flatten]
    tauto
  · intro α A B C
    rfl

/-- C4: the endpoint resolver maps the `stats` family to the stats host with
the locale appended and the `web` family to the web host with the version
appended, but an unknown family silently yields `""` in the wrapper revision
and `None` in the connector revision instead of raising `UnknownFamily`. -/
theorem url_check_unknown_family_silent :
    url_check "v1" "en" "bogus" = "" ∧
    url_check_connector "v1" "en" "bogus" = none ∧
    (∀ ver lang : String,
       url_check ver lang "stats" = "https://api.nhle.com/stats/rest/" ++ lang ∧
       url_check ver lang "web" = "https://api-web.nhle.com/" ++ ver ∧
       url_check_connector ver lang "stats"
         = some ("https://api.nhle.com/stats/rest/" ++ lang) ∧
       url_check_connector ver lang "web"
         = some ("https://api-web.nhle.com/" ++ ver)) :=
  ⟨rfl, rfl, fun _ _ => ⟨rfl, rfl, rfl, rfl⟩⟩

/-- C6: on a non-2xx response the conforming wrapper revision raises the
typed HTTP status error carrying status and body, while the connector
revision silently returns `None`. -/
theorem get_non_2xx_behavior :
    ∀ body : JValue,
      wrapper_get (fun _ => ⟨404, body⟩) "https://api-web.nhle.com/v1"
          "roster/COL/20232024" = .error (.httpError 404 body) ∧
      connector_get (fun _ => ⟨404, body⟩) "https://api-web.nhle.com/v1"
          "roster/COL/20232024" = none ∧
      wrapper_get (fun _ => ⟨500, body⟩) "https://api-web.nhle.com/v1"
          "roster/COL/20232024" = .error (.httpError 500 body) ∧
      connector_get (fun _ => ⟨500, body⟩) "https://api-web.nhle.com/v1"
          "roster/COL/20232024" = none :=
  fun _ => ⟨rfl, rfl, rfl, rfl⟩

/-- C10: for any gametype tag outside `regular`/`playoffs` the check does
not raise but returns the `NHLStatsException` class itself, and
`game_log_player` then builds an endpoint path embedding that class's text
representation and still consults the HTTP layer at that path. -/
theorem check_gametype_returns_class (g : String)
    (h1 : g ≠ "regular") (h2 : g ≠ "playoffs") :
    check_gametype g = .excClass ∧
    (∀ pid s : Nat,
       game_log_player_endpoint pid (some s) (some g)
         = "player/" ++ toString pid ++ "/game-log/" ++ toString s
             ++ ("/" ++ nhlStatsExceptionClassStr)) ∧
    (∀ (fetch : String → JValue) (pid s : Nat),
       game_log_player fetch pid (some s) (some g)
         = subscriptObj
             (fetch ("player/" ++ toString pid ++ "/game-log/" ++ toString s
               ++ ("/" ++ nhlStatsExceptionClassStr))) "gameLog") := by
  have hc : check_gametype g = .excClass := by
    simp [check_gametype, h1, h2]
  have he : ∀ pid s : Nat,
      game_log_player_endpoint pid (some s) (some g)
        = "player/" ++ toString pid ++ "/game-log/" ++ toString s
            ++ ("/" ++ nhlStatsExceptionClassStr) := by
    intro pid s
    simp [game_log_player_endpoint, hc, gametypeCheckStr]
  exact ⟨hc, he, fun fetch pid s => by rw [game_log_player, he]⟩

/-- Witness for C10 at the concrete tag `exhibition`. -/
theorem check_gametype_returns_class_witness :
    check_gametype "exhibition" = .excClass ∧
    game_log_player_endpoint 8478402 (some 20232024) (some "exhibition")
      = "player/8478402/game-log/20232024"
          ++ ("/" ++ nhlStatsExceptionClassStr) := by
  have h := check_gametype_returns_class "exhibition" (by decide) (by decide)
  refine ⟨h.1, (h.2.1 8478402 20232024).trans ?_⟩
  rfl

/-- C5 counterexample: the claim asserts the single-season window runs
through the current calendar year and that validation rejects every
invalid argument, but with `MAX_YEAR = 2026` the code rejects season 2026
(the range's upper end is exclusive) and silently accepts the falsy
arguments `gametype=''` and `season=0`. -/
theorem mpValidate_claim_counterexample :
    mpValidate 2026 none (.int 2026) none none true
      = .error (.validationError "Invalid season") ∧
    mpValidate 2026 (some "") .noneArg none none true = .ok () ∧
    mpValidate 2026 none (.int 0) none none true = .ok () :=
  ⟨rfl, rfl, rfl⟩

/-- `seasonCheck` can only raise the `set(int)` type error; every other
outcome is a truthiness verdict. -/
theorem seasonCheck_error_eq (lo hi : Int) (season : SeasonArg)
    (single_year : Bool) (e : PyError)
    (h : seasonCheck lo hi season single_year = .error e) :
    e = .typeError := by
  unfold seasonCheck at h
  cases season with
  | noneArg => exact absurd h (by simp)
  | int y =>
    by_cases hy : y = 0
    · simp [hy] at h
    · cases hsy : single_year with
      | true => simp [hy, hsy] at h
      | false => simp [hy, hsy] at h; exact h.symm
  | list ys =>
    by_cases hys : ys.isEmpty
    · simp [hys] at h
    · cases hsy : single_year with
      | true => simp [hys, hsy] at h
      | false => simp [hys, hsy] at h

/-- C5 amended: validation accepts exactly the truthy-valid arguments —
a nonzero single season must lie in `[2006, max_year)`, every element of a
nonempty multi-season list in `[2007, max_year)`, and a nonempty gametype /
position / file-type tag must be in its documented set; any failure raises
the validation error (or the `set(int)` type error on the mismatched
int/multi combination), and the documented examples behave as stated. -/
theorem mpValidate_spec :
    (∀ (max_year y : Int) (gt pos ft : Option String),
       mpValidate max_year gt (.int y) pos ft true = .ok ()
         ↔ (strOptInvalid gt ["regular", "playoffs"] = false ∧
            (y ≠ 0 → 2006 ≤ y ∧ y < max_year) ∧
            strOptInvalid pos ["skaters", "goalies"] = false ∧
            strOptInvalid ft ["skaters", "goalies", "lines", "teams"] = false)) ∧
    (∀ (max_year : Int) (ys : List Int) (gt pos ft : Option String),
       mpValidate max_year gt (.list ys) pos ft false = .ok ()
         ↔ (strOptInvalid gt ["regular", "playoffs"] = false ∧
            (∀ y ∈ ys, 2007 ≤ y ∧ y < max_year) ∧
            strOptInvalid pos ["skaters", "goalies"] = false ∧
            strOptInvalid ft ["skaters", "goalies", "lines", "teams"] = false)) ∧
    (∀ (max_year : Int) (gt : Option String) (season : SeasonArg)
        (pos ft : Option String) (b : Bool),
       mpValidate max_year gt season pos ft b = .ok () ∨
       mpValidate max_year gt season pos ft b = .error .typeError ∨
       ∃ msg, mpValidate max_year gt season pos ft b
         = .error (.validationError msg)) ∧
    mpValidate 2026 none (.int 1899) none none true
      = .error (.validationError "Invalid season") ∧
    mpValidate 2026 none (.int 2020) none none true = .ok () ∧
    mpValidate 2026 (some "exhibition") .noneArg none none true
      = .error (.validationError "Invalid gametype") ∧
    mpValidate 2026 (some "playoffs") .noneArg none none true = .ok () := by
  refine ⟨?_, ?_, ?_, rfl, rfl, rfl, rfl⟩
  · intro max_year y gt pos ft
    unfold mpValidate seasonCheck
    generalize strOptInvalid gt ["regular", "playoffs"] = bgt
    generalize strOptInvalid pos ["skaters", "goalies"] = bpos
    generalize strOptInvalid ft ["skaters", "goalies", "lines", "teams"] = bft
    by_cases hy : y = 0 <;> by_cases h1 : (2006 : Int) ≤ y <;>
      by_cases h2 : y < max_year <;>
        cases bgt <;> cases bpos <;> cases bft <;>
          simp [hy, h1, h2, inYearRange]
  · intro max_year ys gt pos ft
    unfold mpValidate seasonCheck
    generalize strOptInvalid gt ["regular", "playoffs"] = bgt
    generalize strOptInvalid pos ["skaters", "goalies"] = bpos
    generalize strOptInvalid ft ["skaters", "goalies", "lines", "teams"] = bft
    by_cases hys : ys = []
    · subst hys
      cases bgt <;> cases bpos <;> cases bft <;> simp
    · have hne : ys.isEmpty = false := by simpa using hys
      cases hany : ys.any (fun y => !inYearRange 2007 max_year y) with
      | true =>
        obtain ⟨y, hmem, hy⟩ := List.any_eq_true.mp hany
        have hy2 : y < 2007 ∨ max_year ≤ y := by
          simp [inYearRange] at hy
          omega
        cases bgt with
        | true => simp
        | false =>
          cases bpos <;> cases bft <;> simp [hne, hany] <;>
            first
              | exact ⟨y, hmem, fun h => by omega⟩
      | false =>
        have hall : ∀ y ∈ ys, 2007 ≤ y ∧ y < max_year := by
          rw [List.any_eq_false] at hany
          intro y hmem
          have h := hany y hmem
          simp [inYearRange] at h
          omega
        cases bgt <;> cases bpos <;> cases bft <;>
          simp [hne, hany, hall] <;>
            first
              | exact hall
  · intro max_year gt season pos ft b
    unfold mpValidate
    by_cases hgt : strOptInvalid gt ["regular", "playoffs"] = true
    · right; right
      exact ⟨"Invalid gametype", by simp [hgt]⟩
    · rw [Bool.not_eq_true] at hgt
      cases hsc : seasonCheck (if b then 2006 else 2007) max_year season b with
      | error e =>
        have he : e = .typeError := seasonCheck_error_eq _ _ _ _ _ hsc
        subst he
        right; left
        simp [hgt, hsc]
      | ok verdict =>
        cases verdict with
        | true =>
          right; right
          exact ⟨"Invalid season", by simp [hgt, hsc]⟩
        | false =>
          by_cases hpos : strOptInvalid pos ["skaters", "goalies"] = true
          · right; right
            exact ⟨"Invalid position", by simp [hgt, hsc, hpos]⟩
          · rw [Bool.not_eq_true] at hpos
            by_cases hft :
                strOptInvalid ft ["skaters", "goalies", "lines", "teams"] = true
            · right; right
              exact ⟨"Invalid file type", by simp [hgt, hsc, hpos, hft]⟩
            · rw [Bool.not_eq_true] at hft
              left
              simp [hgt, hsc, hpos, hft]

/-- C7: the per-season shot fetch opens exactly the inner member named
`shots_{season}.csv` of the archive downloaded from the season's ZIP URL;
when that member name is absent the call fails with the missing-entry
error, and when it is present its content is returned. -/
theorem shots_season_entry (max_year season : Int)
    (fetchZip : String → List (String × String))
    (hok : mpValidate max_year none (.int season) none none true = .ok ()) :
    shots_entry season = "shots_" ++ toString season ++ ".csv" ∧
    (alistLookup (fetchZip (shots_zip_url season)) (shots_entry season) = none →
       shots_season max_year season fetchZip
         = .error (.missingArchiveEntry (shots_entry season))) ∧
    (∀ content,
       alistLookup (fetchZip (shots_zip_url season)) (shots_entry season)
           = some content →
       shots_season max_year season fetchZip = .ok content) := by
  refine ⟨rfl, ?_, ?_⟩
  · intro habsent
    simp [shots_season, hok, zipOpen, habsent]
  · intro content hpresent
    simp [shots_season, hok, zipOpen, hpresent]

/-- Witness for C7: season 2020 against an archive that lacks
`shots_2020.csv` fails with the missing-entry error. -/
theorem shots_season_entry_witness :
    mpValidate 2026 none (.int 2020) none none true = .ok () ∧
    shots_season 2026 2020 (fun _ => [("readme.txt", "hello")])
      = .error (.missingArchiveEntry (shots_entry 2020)) := by
  refine ⟨rfl, ?_⟩
  exact (shots_season_entry 2026 2020 (fun _ => [("readme.txt", "hello")])
    rfl).2.1 rfl

/-- Closed form of the pagination loop: starting at `start`, the loop runs
`⌈(total - start) / 100⌉` iterations at offsets `start, start+100, ...`. -/
theorem skater_stats_loop_closed_form {α : Type} (pages : Nat → List α)
    (season : String) :
    ∀ (d total start : Nat), total - start ≤ d →
      skater_stats_loop pages season total start =
        ((List.range ((total - start + 99) / 100)).map
            (fun i => skaterPayload season (start + 100 * i)),
         (List.range ((total - start + 99) / 100)).map
            (fun i => pages (start + 100 * i))) := by
  intro d
  induction d with
  | zero =>
    intro total start hle
    have h : ¬ start < total := by omega
    have hn : (total - start + 99) / 100 = 0 := by omega
    rw [skater_stats_loop]
    simp [h, hn]
  | succ d ih =>
    intro total start hle
    by_cases h : start < total
    · have hrec := ih total (start + 100) (by omega)
      have hn : (total - start + 99) / 100
          = (total - (start + 100) + 99) / 100 + 1 := by omega
      rw [skater_stats_loop]
      simp only [h, dif_pos, hrec, hn, List.range_succ_eq_map, List.map_cons,
        List.map_map]
      refine Prod.ext ?_ ?_ <;>
        · simp only [Nat.mul_zero, Nat.add_zero]
          refine congrArg₂ List.cons rfl (List.map_congr_left ?_)
          intro i _
          simp only [Function.comp]
          congr 1
          omega
    · have hn : (total - start + 99) / 100 = 0 := by omega
      rw [skater_stats_loop]
      simp [h, hn]

/-- C1: the paginated skater-stats fetch issues one request per window of
width 100 covering `[0, total)`, in ascending start order, each with
`limit='100'` and the given season, and returns the pages' `data` lists
concatenated in that order; `total=250` issues exactly the starts
0, 100, 200 and `total=0` issues nothing and returns `[]`. -/
theorem skater_stats_pagination :
    (∀ (α : Type) (pages : Nat → List α) (season : String) (total : Nat),
       skater_stats_requests pages season total
         = (List.range ((total + 99) / 100)).map
             (fun i => skaterPayload season (100 * i)) ∧
       skater_stats pages season total
         = ((List.range ((total + 99) / 100)).map
             (fun i => pages (100 * i))).flatten) ∧
    (∀ (season : String) (s : Nat),
       (skaterPayload season s).limit = "100" ∧
       (skaterPayload season s).start = s ∧
       (skaterPayload season s).cayenneExp = "" ∧
       (skaterPayload season s).seasonId = season) ∧
    (∀ (α : Type) (pages : Nat → List α) (season : String),
       skater_stats_requests pages season 250
         = [skaterPayload season 0, skaterPayload season 100,
            skaterPayload season 200] ∧
       skater_stats pages season 250 = pages 0 ++ pages 100 ++ pages 200) ∧
    (∀ (α : Type) (pages : Nat → List α) (season : String),
       skater_stats_requests pages season 0 = [] ∧
       skater_stats pages season 0 = []) := by
  have hgen : ∀ (α : Type) (pages : Nat → List α) (season : String) (total : Nat),
      skater_stats_requests pages season total
        = (List.range ((total + 99) / 100)).map
            (fun i => skaterPayload season (100 * i)) ∧
      skater_stats pages season total
        = ((List.range ((total + 99) / 100)).map
            (fun i => pages (100 * i))).flatten := by
    intro α pages season total
    have h := skater_stats_loop_closed_form pages season total total 0
      (by omega)
    rw [Nat.sub_zero] at h
    constructor
    · show (skater_stats_loop pages season total 0).1 = _
      rw [h]
      simp
    · show (skater_stats_loop pages season total 0).2.flatten = _
      rw [h]
      simp
  refine ⟨hgen, fun season s => ⟨rfl, rfl, rfl, rfl⟩, ?_, ?_⟩
  · intro α pages season
    constructor
    · rw [(hgen α pages season 250).1]
      rfl
    · rw [(hgen α pages season 250).2]
      show pages (100 * 0) ++ (pages (100 * 1) ++ (pages (100 * 2) ++ [])) = _
      simp [List.append_assoc]
  · intro α pages season
    exact ⟨(hgen α pages season 0).1, (hgen α pages season 0).2⟩

/-- Updating one key of a record leaves lookups of every other key
unchanged. -/
theorem alistLookup_setField_ne (fields : List (String × JValue))
    (key k : String) (v : JValue) (hne : k ≠ key) :
    alistLookup (setField fields key v) k = alistLookup fields k := by
  have hkey : ¬ key = k := fun hh => hne hh.symm
  induction fields with
  | nil => rfl
  | cons kv rest ih =>
    obtain ⟨k1, v1⟩ := kv
    show alistLookup ((if k1 = key then (key, v) else (k1, v1)) :: setField rest key v) k
        = alistLookup ((k1, v1) :: rest) k
    by_cases h : k1 = key
    · rw [if_pos h]
      show (if key = k then some v else alistLookup (setField rest key v) k)
          = (if k1 = k then some v1 else alistLookup rest k)
      rw [if_neg hkey, if_neg (show ¬ k1 = k by rw [h]; exact hkey)]
      exact ih
    · rw [if_neg h]
      show (if k1 = k then some v1 else alistLookup (setField rest key v) k)
          = (if k1 = k then some v1 else alistLookup rest k)
      by_cases h2 : k1 = k
      · rw [if_pos h2, if_pos h2]
      · rw [if_neg h2, if_neg h2]
        exact ih

/-- One change step leaves lookups of every other key unchanged. -/
theorem applyChange_lookup_ne (player player' : List (String × JValue))
    (c k : String) (hres : applyChange player c = .ok player') (hne : k ≠ c) :
    alistLookup player' k = alistLookup player k := by
  unfold applyChange at hres
  cases hl : alistLookup player c with
  | none =>
    rw [hl] at hres
    simp at hres
    rw [hres]
  | some v =>
    rw [hl] at hres
    cases hs : subscriptObj v "default" with
    | error e => simp [hs] at hres
    | ok d =>
      simp [hs] at hres
      rw [← hres]
      exact alistLookup_setField_ne player c k d hne

/-- The change walk leaves lookups of keys outside the change list
unchanged. -/
theorem applyChanges_lookup_ne (cs : List String) (k : String) :
    ∀ (p p' : List (String × JValue)), (∀ c ∈ cs, k ≠ c) →
      applyChanges cs p = .ok p' →
      alistLookup p' k = alistLookup p k := by
  induction cs with
  | nil =>
    intro p p' _ h
    simp [applyChanges] at h
    rw [h]
  | cons c cs ih =>
    intro p p' hk h
    unfold applyChanges at h
    cases ha : applyChange p c with
    | error e => rw [ha] at h; exact absurd h (by simp)
    | ok p1 =>
      rw [ha] at h
      have h1 := applyChange_lookup_ne p p1 c k ha (hk c (by simp))
      have h2 := ih p1 p' (fun c hc => hk c (by simp [hc])) h
      rw [h2, h1]

/-- A record from which every change key is absent survives the whole walk
unchanged and without error. -/
theorem applyChanges_skip_all (cs : List String) :
    ∀ q : List (String × JValue), (∀ c ∈ cs, alistLookup q c = none) →
      applyChanges cs q = .ok q := by
  induction cs with
  | nil => intro q _; rfl
  | cons c cs ih =>
    intro q hq
    have hc : alistLookup q c = none := hq c (by simp)
    show (match applyChange q c with
      | .ok p1 => applyChanges cs p1
      | .error e => .error e) = .ok q
    rw [show applyChange q c = .ok q from by simp [applyChange, hc]]
    exact ih q (fun c hc => hq c (by simp [hc]))

/-- C9: the roster path applies locale unwrapping only to the four named
fields `firstName`, `lastName`, `birthCity`, `birthStateProvince` — every
other field's value is untouched — and a change key missing from a record
is skipped without error, a record missing all four passing through
entirely unchanged. -/
theorem roster_changes_spec (player player' : List (String × JValue))
    (k : String) (hres : applyRosterChanges player = .ok player')
    (hk : k ∉ rosterChangeKeys) :
    alistLookup player' k = alistLookup player k ∧
    (∀ (q : List (String × JValue)) (c : String), c ∈ rosterChangeKeys →
       alistLookup q c = none → applyChange q c = .ok q) ∧
    (∀ q : List (String × JValue),
       (∀ c ∈ rosterChangeKeys, alistLookup q c = none) →
       applyRosterChanges q = .ok q) := by
  refine ⟨?_, ?_, ?_⟩
  · exact applyChanges_lookup_ne rosterChangeKeys k player player'
      (fun c hc he => hk (he ▸ hc)) hres
  · intro q c _ hnone
    simp [applyChange, hnone]
  · intro q hq
    exact applyChanges_skip_all rosterChangeKeys q hq

/-- Witness for C9 at a concrete player record: `firstName` is unwrapped,
the missing `lastName`/`birthCity`/`birthStateProvince` are skipped, and
`positionCode` is untouched. -/
theorem roster_changes_spec_witness :
    applyRosterChanges
        [("id", JValue.num 1),
         ("firstName", JValue.obj [("default", JValue.str "Andrew")]),
         ("positionCode", JValue.str "C")]
      = .ok [("id", JValue.num 1), ("firstName", JValue.str "Andrew"),
             ("positionCode", JValue.str "C")] ∧
    "positionCode" ∉ rosterChangeKeys ∧
    alistLookup [("id", JValue.num 1), ("firstName", JValue.str "Andrew"),
        ("positionCode", JValue.str "C")] "positionCode"
      = alistLookup [("id", JValue.num 1),
          ("firstName", JValue.obj [("default", JValue.str "Andrew")]),
          ("positionCode", JValue.str "C")] "positionCode" :=
  ⟨rfl, by decide,
   (roster_changes_spec
     [("id", JValue.num 1),
      ("firstName", JValue.obj [("default", JValue.str "Andrew")]),
      ("positionCode", JValue.str "C")]
     [("id", JValue.num 1), ("firstName", JValue.str "Andrew"),
      ("positionCode", JValue.str "C")]
     "positionCode" rfl (by decide)).1⟩
